import Mathlib

/-
Shallow embedding of the openai-zod-functions argument-validation and
dispatch pipeline (src/utils/parse.ts, src/utils/errors.ts, src/handler.ts,
src/reducer.ts).

Modelling conventions:
- JavaScript exceptions become `Except` errors.  A value thrown out of the
  pipeline is a `JsThrown`: either a `SyntaxError` escaping the built-in
  `JSON.parse`, or one of the `HttpError` subclasses the library defines.
- `JSON.parse` is a JavaScript builtin, not code of this repository; it is
  modelled as an explicit parameter `jsonParse : String → Except String V`
  threaded through the pipeline, where `V` is the type of decoded documents.
- The zod validation engine is likewise external; a schema is modelled by its
  one consumed capability, `safeParse`.  The structured zod error is consumed
  by the library only through the renderer `fromZodError(e).message`, so it is
  modelled directly by that rendered message string.
- Asynchronous handlers and the reducer may throw; a JavaScript thrown value
  is a `Thrown`.  The library inspects a thrown value only via
  `err instanceof Error ? err.message : "Unknown error"`.
- To reason about which user logic actually ran, each dispatch function also
  returns a trace: the list of function names whose handler (or the reducer,
  keyed by function name) was invoked, in invocation order.  A name enters the
  trace exactly when control reaches the `try` block of the source, i.e. after
  name resolution and argument parsing both succeed.
-/

set_option autoImplicit false

namespace ZodFunctions

/-- A JavaScript thrown value as the library observes it: the code only checks
whether the value is an `Error` instance and reads its `message`, so a thrown
value is an `Error` carrying a message, or an opaque non-`Error` value
(distinguished by a tag, since the code never inspects it further). -/
inductive Thrown where
  | error (msg : String)
  | nonError (tag : Nat)
deriving DecidableEq, Repr

/-- The idiom `err instanceof Error ? err.message : "Unknown error"` shared by
the `FunctionHandlerError` and `FunctionReducerError` constructors. -/
def Thrown.instanceMessage : Thrown → String
  | .error msg => msg
  | .nonError _ => "Unknown error"

/-- Observable state of an `HttpError` instance (src/utils/errors.ts).  The
constructor stores the message, the HTTP status, the optional source, and sets
`this.name` to the constructor (class) name; the constructor arguments are not
retained beyond what the message string embeds. -/
structure HttpError where
  name : String
  message : String
  status : Nat
  source : Option String
deriving DecidableEq, Repr

/-- Constructor of the `InvalidFunctionName` subclass (src/utils/parse.ts):
message `Function not found: NAME`, status 500, no source. -/
def InvalidFunctionName (name : String) : HttpError :=
  { name := "InvalidFunctionName"
    message := "Function not found: " ++ name
    status := 500
    source := none }

/-- Constructor of the `InvalidFunctionArguments` subclass (src/utils/parse.ts).
`validationError` stands for `fromZodError(zodError).message`, the rendered
form of the structured zod error, which is the only way the class consumes it.
The constructor also logs `MESSAGE (ARGS)`; logging is observability only and
is not modelled.  `args` is kept to mirror the source signature. -/
def InvalidFunctionArguments (name : String) (args : String)
    (validationError : String) : HttpError :=
  { name := "InvalidFunctionArguments"
    message := "Invalid " ++ name ++ " function args: " ++ validationError
    status := 500
    source := some "OpenAI" }

/-- Constructor of the `FunctionHandlerError` subclass (src/handler.ts):
message `Error calling function NAME: M` where `M` is the cause message when
the cause is an `Error` instance and `Unknown error` otherwise.  The cause
value itself is not stored on the instance. -/
def FunctionHandlerError (name : String) (err : Thrown) : HttpError :=
  { name := "FunctionHandlerError"
    message := "Error calling function " ++ name ++ ": " ++ err.instanceMessage
    status := 500
    source := none }

/-- Constructor of the `FunctionReducerError` subclass (src/reducer.ts):
message `Error calling reducer NAME: M`, same cause handling as
`FunctionHandlerError`; the cause value itself is not stored. -/
def FunctionReducerError (name : String) (err : Thrown) : HttpError :=
  { name := "FunctionReducerError"
    message := "Error calling reducer " ++ name ++ ": " ++ err.instanceMessage
    status := 500
    source := none }

/-- A value thrown out of the pipeline to its caller: a `SyntaxError` escaping
the builtin `JSON.parse` (which `parseArguments` does not catch), or one of the
`HttpError` subclasses above. -/
inductive JsThrown where
  | syntaxError (msg : String)
  | http (e : HttpError)
deriving DecidableEq, Repr

/-- Does a pipeline outcome consist of a thrown `InvalidFunctionArguments`? -/
def isInvalidArgumentsFailure {α : Type} : Except JsThrown α → Bool
  | .error (.http e) => e.name == "InvalidFunctionArguments"
  | _ => false

/-- The injected zod validation engine, reduced to the one capability the
library consumes: `schema.safeParse(value)` yields typed data on success, or a
validation error on failure, the latter modelled by the message
`fromZodError` renders from it.  `V` is the type of decoded JSON documents and
`P` the typed parameter output of the schema. -/
structure ZodType (V : Type) (P : Type) where
  safeParse : V → Except String P

/-- A ZodFunctionDef (src/function.ts): name, description, parameter schema. -/
structure ZodFunctionDef (V P : Type) where
  name : String
  description : String
  schema : ZodType V P

/-- findFunction (src/utils/parse.ts): linear scan for the first definition
whose name equals the given name; throws `InvalidFunctionName` if none. -/
def findFunction {V P : Type} (name : String)
    (functions : List (ZodFunctionDef V P)) :
    Except JsThrown (ZodFunctionDef V P) :=
  match functions.find? (fun f => f.name == name) with
  | some func => .ok func
  | none => .error (.http (InvalidFunctionName name))

/-- parseArguments (src/utils/parse.ts): decode the raw arguments string with
`JSON.parse` (uncaught: a decode failure escapes as a `SyntaxError`), then
validate the decoded value with `schema.safeParse`; a validation failure throws
`InvalidFunctionArguments`, a success returns the parsed data. -/
def parseArguments {V P : Type} (jsonParse : String → Except String V)
    (name : String) (args : String) (schema : ZodType V P) :
    Except JsThrown P :=
  match jsonParse args with
  | .error msg => .error (.syntaxError msg)
  | .ok parameters =>
    match schema.safeParse parameters with
    | .error zodError => .error (.http (InvalidFunctionArguments name args zodError))
    | .ok data => .ok data

/-- A ZodFunctionHandler (src/handler.ts): a function definition paired with
asynchronous user logic.  The logic may throw, so it returns
`Except Thrown Output`.  The TypeScript parameter type is `any`; it is
modelled by the type parameter `P`, uniform across a handler list exactly as
the erased `any` is. -/
structure ZodFunctionHandler (V P Output : Type) where
  name : String
  description : String
  schema : ZodType V P
  handler : P → Except Thrown Output

/-- createFunctionHandler (src/handler.ts): packs the four fields. -/
def createFunctionHandler {V P Output : Type} (name : String)
    (description : String) (schema : ZodType V P)
    (handler : P → Except Thrown Output) : ZodFunctionHandler V P Output :=
  { name := name, description := description, schema := schema, handler := handler }

/-- findHandler (src/handler.ts): same linear scan as `findFunction`, over a
handler list; throws `InvalidFunctionName` if no name matches. -/
def findHandler {V P Output : Type} (name : String)
    (handlers : List (ZodFunctionHandler V P Output)) :
    Except JsThrown (ZodFunctionHandler V P Output) :=
  match handlers.find? (fun h => h.name == name) with
  | some handler => .ok handler
  | none => .error (.http (InvalidFunctionName name))

/-- The function part of a tool call: the echoed function name and the raw
arguments string. -/
structure ToolCallFunction where
  name : String
  arguments : String
deriving DecidableEq, Repr

/-- A ChatCompletionMessageToolCall as the library consumes it: an opaque id
(unused by the pipeline) and the function name plus raw arguments. -/
structure ChatCompletionMessageToolCall where
  id : String
  function : ToolCallFunction
deriving DecidableEq, Repr

/-- handleSingleToolCall (src/handler.ts): resolve the handler by name, parse
the arguments against its schema, then invoke the handler inside a try block,
wrapping anything it throws as `FunctionHandlerError`.  The second component is
the invocation trace: `[name]` exactly when control reached the handler
invocation (resolution and parsing both succeeded), `[]` otherwise. -/
def handleSingleToolCall {V P Output : Type}
    (jsonParse : String → Except String V)
    (handlers : List (ZodFunctionHandler V P Output))
    (toolCall : ChatCompletionMessageToolCall) :
    Except JsThrown Output × List String :=
  let name := toolCall.function.name
  match findHandler name handlers with
  | .error e => (.error e, [])
  | .ok handler =>
    match parseArguments jsonParse toolCall.function.name
        toolCall.function.arguments handler.schema with
    | .error e => (.error e, [])
    | .ok parameters =>
      match handler.handler parameters with
      | .ok output => (.ok output, [name])
      | .error err => (.error (.http (FunctionHandlerError name err)), [name])

/-- Settlement of `Promise.all`: fulfilled with the ordered list of outputs
when every promise fulfils, rejected when any promise rejects.  Which
rejection `Promise.all` surfaces depends on timing in JavaScript; the model
deterministically surfaces the first rejection in input order, and no theorem
below depends on which rejection it is, only on whether one exists. -/
def promiseAll {ε α : Type} : List (Except ε α) → Except ε (List α)
  | [] => .ok []
  | .error e :: _ => .error e
  | .ok a :: rest =>
    match promiseAll rest with
    | .error e => .error e
    | .ok as => .ok (a :: as)

/-- handleToolCalls (src/handler.ts): `undefined` tool calls give an empty
output list; otherwise every call is started eagerly by `toolCalls.map` (so
every per-call trace happens regardless of sibling outcomes — `Promise.all`
does not cancel pending promises) and the results are joined by
`Promise.all`.  The batch trace is the concatenation of the per-call traces in
input order. -/
def handleToolCalls {V P Output : Type}
    (jsonParse : String → Except String V)
    (handlers : List (ZodFunctionHandler V P Output))
    (toolCalls : Option (List ChatCompletionMessageToolCall)) :
    Except JsThrown (List Output) × List String :=
  match toolCalls with
  | none => (.ok [], [])
  | some calls =>
    let settled := calls.map (handleSingleToolCall jsonParse handlers)
    (promiseAll (settled.map Prod.fst), (settled.map Prod.snd).flatten)

/-- A ZodFunctionReducer (src/reducer.ts): a list of function definitions plus
one shared fold function.  The fold function receives the parsed parameters as
`any`, modelled by the uniform type parameter `P`; it may throw, so it returns
`Except Thrown State`. -/
structure ZodFunctionReducer (V P State : Type) where
  functions : List (ZodFunctionDef V P)
  reducer : State → String → P → Except Thrown State

/-- Body of the `forEach` callback in reduceToolCalls (src/reducer.ts):
resolve the name against the definition list, parse the arguments against that
schema, then invoke the reducer inside a try block, wrapping anything it
throws as `FunctionReducerError`.  The second component is the invocation
trace, as in `handleSingleToolCall`. -/
def reduceStep {V P State : Type} (jsonParse : String → Except String V)
    (functionReducer : ZodFunctionReducer V P State)
    (state : State) (toolCall : ChatCompletionMessageToolCall) :
    Except JsThrown State × List String :=
  let name := toolCall.function.name
  match findFunction name functionReducer.functions with
  | .error e => (.error e, [])
  | .ok func =>
    match parseArguments jsonParse name toolCall.function.arguments func.schema with
    | .error e => (.error e, [])
    | .ok parameters =>
      match functionReducer.reducer state name parameters with
      | .ok newState => (.ok newState, [name])
      | .error err => (.error (.http (FunctionReducerError name err)), [name])

/-- The `forEach` loop of reduceToolCalls over the mutable `state` variable: a
sequential left fold in input order.  A throw inside the callback aborts the
iteration and propagates; the local `state` accumulated so far is discarded. -/
def reduceToolCallsList {V P State : Type} (jsonParse : String → Except String V)
    (functionReducer : ZodFunctionReducer V P State) :
    State → List ChatCompletionMessageToolCall →
      Except JsThrown State × List String
  | state, [] => (.ok state, [])
  | state, toolCall :: rest =>
    match reduceStep jsonParse functionReducer state toolCall with
    | (.error e, tr) => (.error e, tr)
    | (.ok newState, tr) =>
      let r := reduceToolCallsList jsonParse functionReducer newState rest
      (r.fst, tr ++ r.snd)

/-- reduceToolCalls (src/reducer.ts): `undefined` tool calls return the prior
state unchanged; otherwise the calls are folded sequentially from the prior
state. -/
def reduceToolCalls {V P State : Type} (jsonParse : String → Except String V)
    (prevState : State) (functionReducer : ZodFunctionReducer V P State)
    (toolCalls : Option (List ChatCompletionMessageToolCall)) :
    Except JsThrown State × List String :=
  match toolCalls with
  | none => (.ok prevState, [])
  | some calls => reduceToolCallsList jsonParse functionReducer prevState calls

/-- Primitive JSON values appearing in the concrete scenarios. -/
inductive JsonPrim where
  | num (n : Int)
  | str (s : String)
deriving DecidableEq, Repr

/-- Decoded JSON documents used by the concrete scenarios: a flat object of
primitive fields, which covers every argument payload the scenarios use. -/
structure JsonObj where
  fields : List (String × JsonPrim)
deriving DecidableEq, Repr

/-- Stand-in for the builtin `JSON.parse` on the concrete argument texts used
below: it decodes the listed valid JSON documents and fails on anything else,
as `JSON.parse` throws a `SyntaxError` on malformed input. -/
def demoDecode : String → Except String JsonObj := fun s =>
  if s = "\x7b\"incrementBy\":5\x7d" then
    .ok ⟨[("incrementBy", JsonPrim.num 5)]⟩
  else if s = "\x7b\"incrementBy\":3\x7d" then
    .ok ⟨[("incrementBy", JsonPrim.num 3)]⟩
  else if s = "\x7b\"location\":\"Boulder\",\"format\":\"celsius\"\x7d" then
    .ok ⟨[("location", JsonPrim.str "Boulder"), ("format", JsonPrim.str "celsius")]⟩
  else if s = "\x7b\"location\":\"Boulder\"\x7d" then
    .ok ⟨[("location", JsonPrim.str "Boulder")]⟩
  else
    .error "Unexpected token"

/-- Schema of the increment scenario: accepts an object whose single field
`incrementBy` is a number, narrowing it to that number. -/
def incrementSchema : ZodType JsonObj Int :=
  ⟨fun v =>
    match v.fields with
    | [("incrementBy", JsonPrim.num n)] => .ok n
    | _ => .error "Required at incrementBy"⟩

/-- Schema with a defaulted field, exercising canonicalisation: it accepts a
string location with an optional enum format, returning the typed pair with
the format defaulted to celsius when absent, as a zod default would. -/
def weatherSchema : ZodType JsonObj (String × String) :=
  ⟨fun v =>
    match v.fields with
    | [("location", JsonPrim.str loc), ("format", JsonPrim.str fmt)] =>
      if fmt == "celsius" || fmt == "fahrenheit" then .ok (loc, fmt)
      else .error "Invalid enum value at format"
    | [("location", JsonPrim.str loc)] => .ok (loc, "celsius")
    | _ => .error "Required at location"⟩

/-- The increment function definition of the reducer scenario. -/
def incrementDef : ZodFunctionDef JsonObj Int :=
  { name := "increment", description := "Increment state value"
    schema := incrementSchema }

/-- The reducer of the increment scenario: adds the parsed increment to a
numeric state. -/
def incrementReducer : ZodFunctionReducer JsonObj Int Int :=
  { functions := [incrementDef]
    reducer := fun prevState functionName args =>
      if functionName == "increment" then .ok (prevState + args)
      else .ok prevState }

/-- A reducer over the same definitions whose fold function always throws. -/
def throwingReducer : ZodFunctionReducer JsonObj Int Int :=
  { functions := [incrementDef]
    reducer := fun _ _ _ => .error (Thrown.error "boom") }

/-- A handler for the increment function that doubles the parsed number. -/
def incrementHandler : ZodFunctionHandler JsonObj Int Int :=
  { name := "increment", description := "Increment state value"
    schema := incrementSchema
    handler := fun n => .ok (n + n) }

/-- A handler for the increment function that always throws the given value. -/
def throwingHandler (err : Thrown) : ZodFunctionHandler JsonObj Int Int :=
  { name := "increment", description := "Always throws"
    schema := incrementSchema
    handler := fun _ => .error err }

/-- Tool call increment(5). -/
def incrementCall5 : ChatCompletionMessageToolCall :=
  ⟨"1", ⟨"increment", "\x7b\"incrementBy\":5\x7d"⟩⟩

/-- Tool call increment(3). -/
def incrementCall3 : ChatCompletionMessageToolCall :=
  ⟨"2", ⟨"increment", "\x7b\"incrementBy\":3\x7d"⟩⟩

/-- A tool call whose name matches no definition. -/
def unknownCall : ChatCompletionMessageToolCall :=
  ⟨"3", ⟨"missing", "\x7b\"incrementBy\":5\x7d"⟩⟩

/-- A tool call whose arguments text is not valid JSON. -/
def badArgsCall : ChatCompletionMessageToolCall :=
  ⟨"4", ⟨"increment", "oops"⟩⟩

/-- A tool call that decodes but fails the increment schema. -/
def wrongShapeCall : ChatCompletionMessageToolCall :=
  ⟨"5", ⟨"increment", "\x7b\"location\":\"Boulder\"\x7d"⟩⟩

/-- Mapping `Except.ok` over a list and settling it with `promiseAll` returns
the list itself: a batch in which every call fulfils fulfils with the ordered
outputs. -/
theorem promiseAll_map_ok {ε α : Type} (outs : List α) :
    promiseAll (outs.map (Except.ok : α → Except ε α)) = Except.ok outs := by
  induction outs with
  | nil => rfl
  | cons a rest ih => simp [List.map_cons, promiseAll, ih]

/-- If some promise of the batch rejects, `promiseAll` does not fulfil. -/
theorem promiseAll_not_ok_of_mem_error {ε α : Type}
    (l : List (Except ε α)) (e : ε) (hmem : Except.error e ∈ l) :
    (promiseAll l).isOk = false := by
  induction l with
  | nil => cases hmem
  | cons x rest ih =>
    cases x with
    | error e2 => simp [promiseAll, Except.isOk, Except.toBool]
    | ok a =>
      have hrest : Except.error e ∈ rest := by
        rcases List.mem_cons.mp hmem with h | h
        · exact absurd h (by simp)
        · exact h
      cases hres : promiseAll rest with
      | error e2 => simp [promiseAll, hres, Except.isOk, Except.toBool]
      | ok as =>
        exfalso
        have := ih hrest
        rw [hres] at this
        simp [Except.isOk, Except.toBool] at this

/-- First-match lookup by name: when `x` is an element of `l`, carries the
searched name, and names in `l` are unique, the linear scan finds exactly
`x`. -/
theorem find_by_name_eq_some {β : Type} (getName : β → String) (l : List β)
    (x : β) (name : String) (hmem : x ∈ l) (hname : getName x = name)
    (hnd : (l.map getName).Nodup) :
    l.find? (fun y => getName y == name) = some x := by
  induction l with
  | nil => cases hmem
  | cons b bs ih =>
    rw [List.map_cons, List.nodup_cons] at hnd
    by_cases hb : getName b = name
    · have hx : x = b := by
        rcases List.mem_cons.mp hmem with h | h
        · exact h
        · exfalso
          have : getName x ∈ bs.map getName := List.mem_map_of_mem getName h
          rw [hname, ← hb] at this
          exact hnd.1 this
      subst hx
      rw [List.find?_cons_of_pos]
      simp [hb]
    · have hxb : x ≠ b := fun hxe => hb (hxe ▸ hname)
      have hmem2 : x ∈ bs := by
        rcases List.mem_cons.mp hmem with h | h
        · exact absurd h hxb
        · exact h
      rw [List.find?_cons_of_neg]
      · exact ih hmem2 hnd.2
      · simp [hb]

/-- When no element of `l` carries the searched name, the scan fails. -/
theorem find_by_name_eq_none {β : Type} (getName : β → String) (l : List β)
    (name : String) (habs : ∀ y ∈ l, getName y ≠ name) :
    l.find? (fun y => getName y == name) = none := by
  rw [List.find?_eq_none]
  intro y hy
  simp [habs y hy]

/-- If a step of the reducer fold succeeds, its trace records exactly one
reducer invocation, keyed by the function name of the call. -/
theorem reduceStep_ok_trace {V P State : Type}
    (jsonParse : String → Except String V)
    (fr : ZodFunctionReducer V P State) (s : State)
    (tc : ChatCompletionMessageToolCall) (ns : State) (tr : List String)
    (h : reduceStep jsonParse fr s tc = (.ok ns, tr)) :
    tr = [tc.function.name] := by
  cases hf : findFunction tc.function.name fr.functions with
  | error e => simp only [reduceStep, hf] at h; simp at h
  | ok func =>
    cases hp : parseArguments jsonParse tc.function.name tc.function.arguments
        func.schema with
    | error e => simp only [reduceStep, hf, hp] at h; simp at h
    | ok p =>
      cases hr : fr.reducer s tc.function.name p with
      | ok ns2 =>
        simp only [reduceStep, hf, hp, hr, Prod.mk.injEq] at h
        exact h.2.symm
      | error err => simp only [reduceStep, hf, hp, hr] at h; simp at h

/-- Sequential composition of the reducer fold: when the fold of a first
segment succeeds with state `s1`, the fold of the concatenation continues
from `s1` on the second segment, with traces concatenated. -/
theorem reduceList_append_ok {V P State : Type}
    (jsonParse : String → Except String V)
    (fr : ZodFunctionReducer V P State)
    (l1 : List ChatCompletionMessageToolCall) :
    ∀ (s0 s1 : State) (tr1 : List String)
      (l2 : List ChatCompletionMessageToolCall),
    reduceToolCallsList jsonParse fr s0 l1 = (.ok s1, tr1) →
    reduceToolCallsList jsonParse fr s0 (l1 ++ l2) =
      ((reduceToolCallsList jsonParse fr s1 l2).fst,
        tr1 ++ (reduceToolCallsList jsonParse fr s1 l2).snd) := by
  induction l1 with
  | nil =>
    intro s0 s1 tr1 l2 h
    simp only [reduceToolCallsList, Prod.mk.injEq] at h
    obtain ⟨h1, h2⟩ := h
    cases h1
    cases h2
    simp [reduceToolCallsList]
  | cons c cs ih =>
    intro s0 s1 tr1 l2 h
    cases hstep : reduceStep jsonParse fr s0 c with
    | mk res tr =>
      cases res with
      | error e =>
        simp only [reduceToolCallsList, hstep] at h
        simp at h
      | ok ns =>
        cases hrest : reduceToolCallsList jsonParse fr ns cs with
        | mk rfst rsnd =>
          simp only [reduceToolCallsList, hstep, hrest, Prod.mk.injEq] at h
          obtain ⟨h1, h2⟩ := h
          cases h2
          have hok : reduceToolCallsList jsonParse fr ns cs = (.ok s1, rsnd) := by
            rw [hrest, h1]
          have ih2 := ih ns s1 rsnd l2 hok
          rw [List.cons_append]
          simp only [reduceToolCallsList, hstep, ih2]
          simp [List.append_assoc]

/-- A successful reducer fold has invoked the reducer once per call, in input
order: its trace is exactly the list of call names. -/
theorem reduceList_ok_trace {V P State : Type}
    (jsonParse : String → Except String V)
    (fr : ZodFunctionReducer V P State)
    (calls : List ChatCompletionMessageToolCall) :
    ∀ (s0 finalState : State) (tr : List String),
    reduceToolCallsList jsonParse fr s0 calls = (.ok finalState, tr) →
    tr = calls.map (fun c => c.function.name) := by
  induction calls with
  | nil =>
    intro s0 finalState tr h
    simp only [reduceToolCallsList, Prod.mk.injEq] at h
    simp [h.2.symm]
  | cons c cs ih =>
    intro s0 finalState tr h
    cases hstep : reduceStep jsonParse fr s0 c with
    | mk res tr0 =>
      cases res with
      | error e =>
        simp only [reduceToolCallsList, hstep] at h
        simp at h
      | ok ns =>
        cases hrest : reduceToolCallsList jsonParse fr ns cs with
        | mk rfst rsnd =>
          simp only [reduceToolCallsList, hstep, hrest, Prod.mk.injEq] at h
          obtain ⟨h1, h2⟩ := h
          cases h2
          have hok : reduceToolCallsList jsonParse fr ns cs = (.ok finalState, rsnd) := by
            rw [hrest, h1]
          have htr0 := reduceStep_ok_trace jsonParse fr s0 c ns tr0 hstep
          have htail := ih ns finalState rsnd hok
          rw [htr0, htail]
          simp

/-- C1 counterexample: the claim is false as stated.  For the malformed
arguments text `oops`, which fails to decode, `parseArguments` does fail, but
with the propagated decoder `SyntaxError`, not with `InvalidArguments`. -/
theorem parseArguments_decode_failure_not_invalid_arguments :
    parseArguments demoDecode "increment" "oops" incrementSchema =
      .error (.syntaxError "Unexpected token") ∧
    isInvalidArgumentsFailure
      (parseArguments demoDecode "increment" "oops" incrementSchema) = false := by
  exact ⟨rfl, rfl⟩

/-- C1 (amended): for every function name, schema, and arguments string, when
the arguments text decodes but the decoded value fails schema validation,
`parseArguments` fails with `InvalidArguments` and returns no value; when the
arguments text fails to decode, the decode failure propagates unmodified as
the decoder `SyntaxError` rather than being classified `InvalidArguments`. -/
theorem parseArguments_failure_classification {V P : Type}
    (jsonParse : String → Except String V) (name args : String)
    (schema : ZodType V P) :
    (∀ msg, jsonParse args = .error msg →
      parseArguments jsonParse name args schema =
        .error (.syntaxError msg) ∧
      isInvalidArgumentsFailure (parseArguments jsonParse name args schema)
        = false) ∧
    (∀ v zodError, jsonParse args = .ok v →
      schema.safeParse v = .error zodError →
      parseArguments jsonParse name args schema =
        .error (.http (InvalidFunctionArguments name args zodError)) ∧
      isInvalidArgumentsFailure (parseArguments jsonParse name args schema)
        = true) := by
  refine ⟨?_, ?_⟩
  · intro msg hdec
    constructor
    · simp [parseArguments, hdec]
    · simp [parseArguments, hdec, isInvalidArgumentsFailure]
  · intro v zodError hdec hval
    constructor
    · simp [parseArguments, hdec, hval]
    · simp [parseArguments, hdec, hval, isInvalidArgumentsFailure,
        InvalidFunctionArguments]

/-- Witness for the amended C1 at concrete inputs: the malformed text `oops`
propagates the decoder failure, and the well-formed payload that misses the
required field fails with `InvalidFunctionArguments`. -/
theorem parseArguments_failure_classification_witness :
    (parseArguments demoDecode "increment" "oops" incrementSchema =
        .error (.syntaxError "Unexpected token") ∧
      isInvalidArgumentsFailure
        (parseArguments demoDecode "increment" "oops" incrementSchema)
        = false) ∧
    (parseArguments demoDecode "increment" "\x7b\"location\":\"Boulder\"\x7d"
        incrementSchema =
      .error (.http (InvalidFunctionArguments "increment"
        "\x7b\"location\":\"Boulder\"\x7d" "Required at incrementBy"))) := by
  constructor
  · exact (parseArguments_failure_classification demoDecode "increment"
      "oops" incrementSchema).1 "Unexpected token" rfl
  · exact ((parseArguments_failure_classification demoDecode "increment"
      "\x7b\"location\":\"Boulder\"\x7d" incrementSchema).2
      ⟨[("location", JsonPrim.str "Boulder")]⟩ "Required at incrementBy"
      rfl rfl).1

/-- C6: for every schema S and value V accepted by S, `parseArguments` applied
to an encoding of V returns exactly the canonicalised and coerced output of S
for V, i.e. the data produced by `safeParse`, not a raw echo of the decoded
input. -/
theorem parseArguments_returns_schema_output {V P : Type}
    (jsonParse : String → Except String V) (name args : String)
    (schema : ZodType V P) (v : V) (data : P)
    (hdec : jsonParse args = .ok v)
    (hval : schema.safeParse v = .ok data) :
    parseArguments jsonParse name args schema = .ok data := by
  simp [parseArguments, hdec, hval]

/-- Witness for C6: a payload without a format field is canonicalised by the
defaulted weather schema to the typed pair with format celsius — the schema
output, visibly not an echo of the decoded object. -/
theorem parseArguments_returns_schema_output_witness :
    demoDecode "\x7b\"location\":\"Boulder\"\x7d" =
      .ok ⟨[("location", JsonPrim.str "Boulder")]⟩ ∧
    weatherSchema.safeParse ⟨[("location", JsonPrim.str "Boulder")]⟩ =
      .ok ("Boulder", "celsius") ∧
    parseArguments demoDecode "get_current_weather"
        "\x7b\"location\":\"Boulder\"\x7d" weatherSchema =
      .ok ("Boulder", "celsius") := by
  refine ⟨rfl, rfl, ?_⟩
  exact parseArguments_returns_schema_output demoDecode "get_current_weather"
    "\x7b\"location\":\"Boulder\"\x7d" weatherSchema
    ⟨[("location", JsonPrim.str "Boulder")]⟩ ("Boulder", "celsius") rfl rfl

/-- C9: the outcome of `parseArguments` is independent of its name argument:
for any two names, the same arguments text and schema, the two applications
succeed together and return the same value; the name only enters the message
of the thrown error. -/
theorem parseArguments_name_independent {V P : Type}
    (jsonParse : String → Except String V) (n1 n2 args : String)
    (schema : ZodType V P) :
    (parseArguments jsonParse n1 args schema).toOption =
      (parseArguments jsonParse n2 args schema).toOption ∧
    (parseArguments jsonParse n1 args schema).isOk =
      (parseArguments jsonParse n2 args schema).isOk := by
  cases hdec : jsonParse args with
  | error msg => simp [parseArguments, hdec]
  | ok v =>
    cases hval : schema.safeParse v with
    | error e =>
      simp [parseArguments, hdec, hval, Except.toOption, Except.isOk,
        Except.toBool]
    | ok d => simp [parseArguments, hdec, hval]

/-- C7: for every definitions or handlers list with unique names, the lookup
returns the entry whose name equals the given name when one is present, and
fails with `InvalidFunctionName` (UnknownFunction) for every name absent from
the list. -/
theorem find_function_handler_correct {V P Output : Type} (name : String)
    (functions : List (ZodFunctionDef V P)) (f : ZodFunctionDef V P)
    (handlers : List (ZodFunctionHandler V P Output))
    (hdl : ZodFunctionHandler V P Output) :
    (f ∈ functions → f.name = name →
      (functions.map ZodFunctionDef.name).Nodup →
      findFunction name functions = .ok f) ∧
    ((∀ g ∈ functions, g.name ≠ name) →
      findFunction name functions =
        .error (.http (InvalidFunctionName name))) ∧
    (hdl ∈ handlers → hdl.name = name →
      (handlers.map ZodFunctionHandler.name).Nodup →
      findHandler name handlers = .ok hdl) ∧
    ((∀ g ∈ handlers, g.name ≠ name) →
      findHandler name handlers =
        .error (.http (InvalidFunctionName name))) := by
  refine ⟨?_, ?_, ?_, ?_⟩
  · intro hmem hname hnd
    unfold findFunction
    rw [find_by_name_eq_some ZodFunctionDef.name functions f name hmem hname hnd]
  · intro habs
    unfold findFunction
    rw [find_by_name_eq_none ZodFunctionDef.name functions name habs]
  · intro hmem hname hnd
    unfold findHandler
    rw [find_by_name_eq_some ZodFunctionHandler.name handlers hdl name hmem
      hname hnd]
  · intro habs
    unfold findHandler
    rw [find_by_name_eq_none ZodFunctionHandler.name handlers name habs]

/-- Witness for C7 at concrete lists: the increment definition and handler are
found under their own name, and the lookup of a missing name fails with
`InvalidFunctionName`. -/
theorem find_function_handler_correct_witness :
    findFunction "increment" [incrementDef] = .ok incrementDef ∧
    findFunction "missing" [incrementDef] =
      .error (.http (InvalidFunctionName "missing")) ∧
    findHandler "increment" [incrementHandler] = .ok incrementHandler ∧
    findHandler "missing" [incrementHandler] =
      .error (.http (InvalidFunctionName "missing")) := by
  have h1 := find_function_handler_correct "increment" [incrementDef]
    incrementDef [incrementHandler] incrementHandler
  have h2 := find_function_handler_correct "missing" [incrementDef]
    incrementDef [incrementHandler] incrementHandler
  refine ⟨h1.1 (by simp) rfl (by simp), h2.2.1 ?_,
    h1.2.2.1 (by simp) rfl (by simp), h2.2.2.2 ?_⟩
  · intro g hg
    rw [List.mem_singleton] at hg
    subst hg
    decide
  · intro g hg
    rw [List.mem_singleton] at hg
    subst hg
    decide

/-- C2: in the batch dispatch, a resolution failure (`InvalidFunctionName`,
the UnknownFunction error) or a validation failure aborts a call before its
handler runs (empty invocation trace); a failure raised by the invoked handler
is wrapped as `FunctionHandlerError` carrying the function name; and any one
call failing makes the whole `handleToolCalls` invocation fail. -/
theorem handleToolCalls_failure_semantics {V P Output : Type}
    (jsonParse : String → Except String V)
    (handlers : List (ZodFunctionHandler V P Output))
    (tc : ChatCompletionMessageToolCall)
    (calls : List ChatCompletionMessageToolCall) :
    (∀ e, findHandler tc.function.name handlers = .error e →
      handleSingleToolCall jsonParse handlers tc = (.error e, [])) ∧
    (∀ hdl e, findHandler tc.function.name handlers = .ok hdl →
      parseArguments jsonParse tc.function.name tc.function.arguments
        hdl.schema = .error e →
      handleSingleToolCall jsonParse handlers tc = (.error e, [])) ∧
    (∀ hdl p err, findHandler tc.function.name handlers = .ok hdl →
      parseArguments jsonParse tc.function.name tc.function.arguments
        hdl.schema = .ok p →
      hdl.handler p = .error err →
      handleSingleToolCall jsonParse handlers tc =
        (.error (.http (FunctionHandlerError tc.function.name err)),
          [tc.function.name])) ∧
    (∀ e, tc ∈ calls →
      (handleSingleToolCall jsonParse handlers tc).fst = .error e →
      (handleToolCalls jsonParse handlers (some calls)).fst.isOk = false) := by
  refine ⟨?_, ?_, ?_, ?_⟩
  · intro e hf
    simp only [handleSingleToolCall, hf]
  · intro hdl e hf hp
    simp only [handleSingleToolCall, hf, hp]
  · intro hdl p err hf hp hh
    simp only [handleSingleToolCall, hf, hp, hh]
  · intro e hmem hfst
    simp only [handleToolCalls]
    apply promiseAll_not_ok_of_mem_error _ e
    rw [List.map_map]
    have hm := List.mem_map_of_mem
      (fun c => (handleSingleToolCall jsonParse handlers c).fst) hmem
    simpa [Function.comp, hfst] using hm

/-- Witness for C2 at concrete inputs: an unknown name and an invalid payload
abort their calls with an empty trace, a throwing handler is wrapped as
`FunctionHandlerError` named increment, and a batch with one bad call does not
fulfil. -/
theorem handleToolCalls_failure_semantics_witness :
    handleSingleToolCall demoDecode [incrementHandler] unknownCall =
      (.error (.http (InvalidFunctionName "missing")), []) ∧
    handleSingleToolCall demoDecode [incrementHandler] wrongShapeCall =
      (.error (.http (InvalidFunctionArguments "increment"
        "\x7b\"location\":\"Boulder\"\x7d" "Required at incrementBy")), []) ∧
    handleSingleToolCall demoDecode [throwingHandler (Thrown.error "boom")]
        incrementCall5 =
      (.error (.http (FunctionHandlerError "increment" (Thrown.error "boom"))),
        ["increment"]) ∧
    (handleToolCalls demoDecode [incrementHandler]
      (some [unknownCall, incrementCall5])).fst.isOk = false := by
  have h1 := handleToolCalls_failure_semantics demoDecode [incrementHandler]
    unknownCall [unknownCall, incrementCall5]
  have h2 := handleToolCalls_failure_semantics demoDecode [incrementHandler]
    wrongShapeCall ([] : List ChatCompletionMessageToolCall)
  have h3 := handleToolCalls_failure_semantics demoDecode
    [throwingHandler (Thrown.error "boom")] incrementCall5
    ([] : List ChatCompletionMessageToolCall)
  refine ⟨h1.1 (.http (InvalidFunctionName "missing")) rfl, ?_, ?_, ?_⟩
  · exact h2.2.1 incrementHandler
      (.http (InvalidFunctionArguments "increment"
        "\x7b\"location\":\"Boulder\"\x7d" "Required at incrementBy")) rfl rfl
  · exact h3.2.2.1 (throwingHandler (Thrown.error "boom")) 5
      (Thrown.error "boom") rfl rfl rfl
  · exact h1.2.2.2 (.http (InvalidFunctionName "missing")) (by simp) rfl

/-- C5: when every call of the batch succeeds, `handleToolCalls` returns the
output list whose length equals the number of calls and whose entry at each
position is the output of the handler for the call at that position; absent or
empty calls give the empty list with no handler invoked (empty trace). -/
theorem handleToolCalls_success_order {V P Output : Type}
    (jsonParse : String → Except String V)
    (handlers : List (ZodFunctionHandler V P Output))
    (calls : List ChatCompletionMessageToolCall) (outs : List Output)
    (hall : calls.map
        (fun c => (handleSingleToolCall jsonParse handlers c).fst)
      = outs.map Except.ok) :
    (handleToolCalls jsonParse handlers (some calls)).fst = .ok outs ∧
    outs.length = calls.length ∧
    handleToolCalls jsonParse handlers none = (.ok [], []) ∧
    handleToolCalls jsonParse handlers (some []) = (.ok [], []) := by
  refine ⟨?_, ?_, rfl, rfl⟩
  · have hmm : (calls.map (handleSingleToolCall jsonParse handlers)).map
        Prod.fst = outs.map Except.ok := by
      rw [List.map_map]
      simpa [Function.comp] using hall
    simp only [handleToolCalls, hmm, promiseAll_map_ok]
  · have := congrArg List.length hall
    simpa using this.symm

/-- Witness for C5: both increment calls succeed, the batch returns their
outputs in input order, and the lengths agree. -/
theorem handleToolCalls_success_order_witness :
    (handleToolCalls demoDecode [incrementHandler]
      (some [incrementCall5, incrementCall3])).fst = .ok [10, 6] ∧
    ([10, 6] : List Int).length =
      [incrementCall5, incrementCall3].length ∧
    handleToolCalls demoDecode [incrementHandler]
      (none : Option (List ChatCompletionMessageToolCall)) = (.ok [], []) := by
  have h := handleToolCalls_success_order demoDecode [incrementHandler]
    [incrementCall5, incrementCall3] [10, 6] rfl
  exact ⟨h.1, h.2.1, h.2.2.1⟩

/-- C10: the batch processes each call independently of its siblings: the
batch trace is the concatenation of the per-call traces, and any call whose
own resolution and parsing succeed has its handler invoked (its name enters
the batch trace) with no hypothesis on the other calls of the batch. -/
theorem handleToolCalls_calls_independent {V P Output : Type}
    (jsonParse : String → Except String V)
    (handlers : List (ZodFunctionHandler V P Output))
    (calls : List ChatCompletionMessageToolCall)
    (tc : ChatCompletionMessageToolCall) :
    (handleToolCalls jsonParse handlers (some calls)).snd =
      (calls.map
        (fun c => (handleSingleToolCall jsonParse handlers c).snd)).flatten ∧
    (∀ hdl p, tc ∈ calls →
      findHandler tc.function.name handlers = .ok hdl →
      parseArguments jsonParse tc.function.name tc.function.arguments
        hdl.schema = .ok p →
      tc.function.name ∈
        (handleToolCalls jsonParse handlers (some calls)).snd) := by
  constructor
  · simp only [handleToolCalls]
    rw [List.map_map]
    rfl
  · intro hdl p hmem hf hp
    have hsnd : (handleSingleToolCall jsonParse handlers tc).snd =
        [tc.function.name] := by
      cases hcall : hdl.handler p with
      | ok o => simp only [handleSingleToolCall, hf, hp, hcall]
      | error err => simp only [handleSingleToolCall, hf, hp, hcall]
    simp only [handleToolCalls]
    have hm : (handleSingleToolCall jsonParse handlers tc).snd ∈
        (calls.map (handleSingleToolCall jsonParse handlers)).map Prod.snd := by
      rw [List.map_map]
      have := List.mem_map_of_mem
        (fun c => (handleSingleToolCall jsonParse handlers c).snd) hmem
      simpa [Function.comp] using this
    have hin : tc.function.name ∈
        (handleSingleToolCall jsonParse handlers tc).snd := by
      rw [hsnd]
      simp
    exact List.mem_flatten_of_mem hm hin

/-- Witness for C10: in a batch whose first call fails resolution (so the
batch as a whole fails), the second call still has its handler invoked — its
name appears in the batch trace. -/
theorem handleToolCalls_calls_independent_witness :
    "increment" ∈ (handleToolCalls demoDecode [incrementHandler]
      (some [unknownCall, incrementCall5])).snd ∧
    (handleToolCalls demoDecode [incrementHandler]
      (some [unknownCall, incrementCall5])).fst.isOk = false := by
  have h := handleToolCalls_calls_independent demoDecode [incrementHandler]
    [unknownCall, incrementCall5] incrementCall5
  constructor
  · have := h.2 incrementHandler 5 (by simp) rfl rfl
    simpa using this
  · rfl

/-- C3: a failure thrown by the fold function is wrapped as
`FunctionReducerError` (ReducerFailed) carrying the function name and aborts
the fold: when the fold of the calls before `tc` succeeds with state `s1` and
the reducer throws at `tc`, the whole batch returns only that wrapped error —
the state accumulated by the prior successful steps is discarded and no later
call is processed.  A successful batch has folded every call, so a caller only
ever observes the pre-batch state or the fully folded post-batch state. -/
theorem reduceToolCalls_failure_semantics {V P State : Type}
    (jsonParse : String → Except String V)
    (fr : ZodFunctionReducer V P State) (s0 s1 : State)
    (pre post : List ChatCompletionMessageToolCall)
    (tc : ChatCompletionMessageToolCall) (tr1 : List String)
    (func : ZodFunctionDef V P) (p : P) (err : Thrown)
    (hpre : reduceToolCallsList jsonParse fr s0 pre = (.ok s1, tr1))
    (hfind : findFunction tc.function.name fr.functions = .ok func)
    (hparse : parseArguments jsonParse tc.function.name
      tc.function.arguments func.schema = .ok p)
    (hthrow : fr.reducer s1 tc.function.name p = .error err) :
    reduceToolCalls jsonParse s0 fr (some (pre ++ tc :: post)) =
      (.error (.http (FunctionReducerError tc.function.name err)),
        tr1 ++ [tc.function.name]) ∧
    (∀ calls finalState tr,
      reduceToolCalls jsonParse s0 fr (some calls) = (.ok finalState, tr) →
      tr = calls.map (fun c => c.function.name)) := by
  constructor
  · have hstep : reduceStep jsonParse fr s1 tc =
        (.error (.http (FunctionReducerError tc.function.name err)),
          [tc.function.name]) := by
      simp only [reduceStep, hfind, hparse, hthrow]
    have happ := reduceList_append_ok jsonParse fr pre s0 s1 tr1
      (tc :: post) hpre
    simp only [reduceToolCalls]
    rw [happ]
    simp only [reduceToolCallsList, hstep]
  · intro calls finalState tr h
    simp only [reduceToolCalls] at h
    exact reduceList_ok_trace jsonParse fr calls s0 finalState tr h

/-- Witness for C3: with the always-throwing reducer, the batch of two
increment calls fails at the first call with the wrapped `FunctionReducerError`
and the second call is never processed (trace stops at the first name). -/
theorem reduceToolCalls_failure_semantics_witness :
    reduceToolCalls demoDecode (0 : Int) throwingReducer
        (some [incrementCall5, incrementCall3]) =
      (.error (.http (FunctionReducerError "increment" (Thrown.error "boom"))),
        ["increment"]) := by
  have h := reduceToolCalls_failure_semantics demoDecode throwingReducer
    (0 : Int) 0 [] [incrementCall3] incrementCall5 [] incrementDef 5
    (Thrown.error "boom") rfl rfl rfl rfl
  simpa using h.1

/-- C4: `reduceToolCalls` is a strictly sequential, order-preserving left
fold: the fold of a concatenation continues the second segment from the state
produced by the first, so each step consumes the state of the previous one;
undefined or empty calls return the initial state unchanged; and the increment
scenario folds initial state 0 through increment(5) then increment(3) to 8. -/
theorem reduceToolCalls_sequential_fold {V P State : Type}
    (jsonParse : String → Except String V)
    (fr : ZodFunctionReducer V P State) (s0 s1 : State) (tr1 : List String)
    (l1 l2 : List ChatCompletionMessageToolCall)
    (h : reduceToolCallsList jsonParse fr s0 l1 = (.ok s1, tr1)) :
    reduceToolCalls jsonParse s0 fr (some (l1 ++ l2)) =
      ((reduceToolCallsList jsonParse fr s1 l2).fst,
        tr1 ++ (reduceToolCallsList jsonParse fr s1 l2).snd) ∧
    reduceToolCalls jsonParse s0 fr none = (.ok s0, []) ∧
    reduceToolCalls jsonParse s0 fr (some []) = (.ok s0, []) ∧
    (reduceToolCalls demoDecode (0 : Int) incrementReducer
      (some [incrementCall5, incrementCall3])).fst = .ok 8 := by
  refine ⟨?_, rfl, rfl, rfl⟩
  simp only [reduceToolCalls]
  exact reduceList_append_ok jsonParse fr l1 s0 s1 tr1 l2 h

/-- Witness for C4: the two-call increment batch decomposes as the fold of the
first call followed by the fold of the second from the intermediate state 5,
and the final state is 8. -/
theorem reduceToolCalls_sequential_fold_witness :
    reduceToolCalls demoDecode (0 : Int) incrementReducer
        (some ([incrementCall5] ++ [incrementCall3])) =
      ((reduceToolCallsList demoDecode incrementReducer 5
          [incrementCall3]).fst,
        ["increment"] ++ (reduceToolCallsList demoDecode incrementReducer 5
          [incrementCall3]).snd) ∧
    (reduceToolCalls demoDecode (0 : Int) incrementReducer
      (some [incrementCall5, incrementCall3])).fst = .ok 8 := by
  have h := reduceToolCalls_sequential_fold demoDecode incrementReducer
    (0 : Int) 5 ["increment"] [incrementCall5] [incrementCall3] rfl
  exact ⟨h.1, h.2.2.2⟩

/-- C8 counterexample: the claim is false as stated.  Two different non-Error
causes thrown by the same handler produce identical pipeline outcomes, whose
message reads `Unknown error`: the resulting error does not carry the
underlying cause of the failure. -/
theorem handler_error_drops_nonError_cause :
    Thrown.nonError 0 ≠ Thrown.nonError 1 ∧
    handleSingleToolCall demoDecode [throwingHandler (Thrown.nonError 0)]
        incrementCall5 =
      handleSingleToolCall demoDecode [throwingHandler (Thrown.nonError 1)]
        incrementCall5 ∧
    (handleSingleToolCall demoDecode [throwingHandler (Thrown.nonError 0)]
        incrementCall5).fst =
      .error (.http ⟨"FunctionHandlerError",
        "Error calling function increment: Unknown error", 500, none⟩) := by
  exact ⟨by decide, rfl, rfl⟩

/-- C8 (amended): whenever invoked user logic raises a failure, the resulting
`FunctionHandlerError` or `FunctionReducerError` carries the offending
function name in its message, together with the message of the underlying
cause when that cause is an Error instance; a non-Error cause is rendered as
`Unknown error` and the cause itself is not retained. -/
theorem failed_errors_carry_name_and_cause {V P Output State : Type}
    (jsonParse : String → Except String V)
    (handlers : List (ZodFunctionHandler V P Output))
    (tc : ChatCompletionMessageToolCall)
    (fr : ZodFunctionReducer V P State) (s : State) (m : String) :
    (∀ hdl p, findHandler tc.function.name handlers = .ok hdl →
      parseArguments jsonParse tc.function.name tc.function.arguments
        hdl.schema = .ok p →
      hdl.handler p = .error (.error m) →
      (handleSingleToolCall jsonParse handlers tc).fst =
        .error (.http ⟨"FunctionHandlerError",
          "Error calling function " ++ tc.function.name ++ ": " ++ m,
          500, none⟩)) ∧
    (∀ func q, findFunction tc.function.name fr.functions = .ok func →
      parseArguments jsonParse tc.function.name tc.function.arguments
        func.schema = .ok q →
      fr.reducer s tc.function.name q = .error (.error m) →
      (reduceStep jsonParse fr s tc).fst =
        .error (.http ⟨"FunctionReducerError",
          "Error calling reducer " ++ tc.function.name ++ ": " ++ m,
          500, none⟩)) ∧
    (∀ err : Thrown, (∀ k, err ≠ Thrown.error k) →
      FunctionHandlerError tc.function.name err =
        FunctionHandlerError tc.function.name (Thrown.nonError 0) ∧
      (FunctionHandlerError tc.function.name err).message =
        "Error calling function " ++ tc.function.name ++ ": " ++
          "Unknown error" ∧
      FunctionReducerError tc.function.name err =
        FunctionReducerError tc.function.name (Thrown.nonError 0)) := by
  refine ⟨?_, ?_, ?_⟩
  · intro hdl p hf hp hh
    simp only [handleSingleToolCall, hf, hp, hh]
    rfl
  · intro func q hf hp hr
    simp only [reduceStep, hf, hp, hr]
    rfl
  · intro err habs
    cases err with
    | error k => exact absurd rfl (habs k)
    | nonError t => exact ⟨rfl, rfl, rfl⟩

/-- Witness for the amended C8: an Error cause with message boom is carried in
the message of both wrapped errors, and a non-Error cause is rendered as
`Unknown error`. -/
theorem failed_errors_carry_name_and_cause_witness :
    (handleSingleToolCall demoDecode [throwingHandler (Thrown.error "boom")]
        incrementCall5).fst =
      .error (.http ⟨"FunctionHandlerError",
        "Error calling function increment: boom", 500, none⟩) ∧
    (reduceStep demoDecode throwingReducer (0 : Int) incrementCall5).fst =
      .error (.http ⟨"FunctionReducerError",
        "Error calling reducer increment: boom", 500, none⟩) ∧
    FunctionHandlerError "increment" (Thrown.nonError 7) =
      FunctionHandlerError "increment" (Thrown.nonError 0) := by
  have h := failed_errors_carry_name_and_cause demoDecode
    [throwingHandler (Thrown.error "boom")] incrementCall5 throwingReducer
    (0 : Int) "boom"
  refine ⟨?_, ?_, ?_⟩
  · exact h.1 (throwingHandler (Thrown.error "boom")) 5 rfl rfl rfl
  · exact h.2.1 incrementDef 5 rfl rfl rfl
  · exact (h.2.2 (Thrown.nonError 7) (fun k => by simp)).1

end ZodFunctions




